import Mathlib

/-!
Shallow embedding of `ratlib/api/http.py` (repository `pipsqueak`).

Python strings are modelled as lists of characters (`Str`).  The module has
two pieces: the pure URL joiner `urljoin` and the API call executor `call`.
The HTTP transport (the `requests` library) is external; it is modelled by a
`TransportOutcome` value describing what the transport call did.
-/

namespace Ratlib

/-- Python strings, modelled as lists of characters. -/
abbrev Str := List Char

/-- The test `part[0] == chr(47)` on a string: true iff the first character is
a slash.  The source only evaluates it on non-empty strings. -/
def headIsSlash : Str → Bool
  | [] => false
  | c :: _ => c = '/'

/-- The test `prev[-1] == chr(47)` on a string: true iff the last character is
a slash. -/
def lastIsSlash (s : Str) : Bool :=
  match s.getLast? with
  | some c => c = '/'
  | none => false

/-- The generator `_gen` inside `urljoin` (src/ratlib/api/http.py lines
60-75): `prev` is the previously emitted piece (initially `None`, modelled as
`[]`, since the source only ever tests its truthiness), and each non-empty
incoming `part` is emitted after the boundary-slash comparison, possibly with
its leading slash stripped or preceded by an extra slash piece. -/
def urljoinGen : Str → List Str → List Str
  | _, [] => []
  | prev, part :: rest =>
    if part.isEmpty then urljoinGen prev rest
    else if prev.isEmpty then part :: urljoinGen part rest
    else if lastIsSlash prev != headIsSlash part then part :: urljoinGen part rest
    else if headIsSlash part then part.tail :: urljoinGen part.tail rest
    else ['/'] :: part :: urljoinGen part rest

/-- `urljoin(*parts)` (src/ratlib/api/http.py lines 51-77): the concatenation
of the pieces emitted by the generator. -/
def urljoin (parts : List Str) : Str := (urljoinGen [] parts).flatten

/-- Remove one leading slash if present. -/
def stripLead (s : Str) : Str := if headIsSlash s then s.tail else s

/-- Remove one trailing slash if present. -/
def stripTrail (s : Str) : Str := if lastIsSlash s then s.dropLast else s

/-- Formalisation of the SPEC sentence (spec 4.1 / claim C1), not of the
source: consecutive non-empty fragments are separated by exactly one slash,
regardless of carried boundary slashes.  Each junction contributes exactly one
slash, with the fragment on its left losing one trailing slash and the
fragment on its right losing one leading slash. -/
def specJoinAux : Str → List Str → Str
  | p, [] => p
  | p, q :: rest => stripTrail p ++ ['/'] ++ specJoinAux (stripLead q) rest

/-- Formalisation of the SPEC contract for the URL joiner: skip empty
fragments, then separate consecutive fragments by exactly one slash via
`specJoinAux`. -/
def specJoin (parts : List Str) : Str :=
  match parts.filter (fun p => !p.isEmpty) with
  | [] => []
  | p :: rest => specJoinAux p rest

/-- The running behaviour of the generator as a function of its state: the
output still to come, given that the last emitted piece ends (`b = true`) or
does not end (`b = false`) in a slash. -/
def tailJoin : Bool → List Str → Str
  | _, [] => []
  | b, q :: rest =>
    if q.isEmpty then tailJoin b rest
    else (if b then [] else ['/']) ++ stripLead q ++ tailJoin (lastIsSlash (stripLead q)) rest

/-- Decoded JSON values, as produced by `response.json()`. -/
inductive JValue where
  | null
  | bool (b : Bool)
  | num (n : Int)
  | str (s : Str)
  | arr (elems : List JValue)
  | obj (fields : List (Str × JValue))

/-- A decoded top-level JSON object (a Python dict with string keys). -/
abbrev JObj := List (Str × JValue)

/-- Python dict lookup with string keys: `d.get(key)` / `d[key]`. -/
def jLookup : JObj → Str → Option JValue
  | [], _ => none
  | (k, v) :: rest, key => if k = key then some v else jLookup rest key

/-- The exception classes declared in src/ratlib/api/http.py lines 9-43,
together with the built-in root they inherit from. -/
inductive PyClass where
  | Exception
  | APIError
  | BadResponseError
  | BadJSONError
  | UnsupportedMethodError
  | HTTPError
deriving DecidableEq

/-- The direct base class of each declared exception class, read off the
class headers: `APIError(Exception)`, `BadResponseError(APIError)`,
`BadJSONError(BadResponseError)`, `UnsupportedMethodError(APIError)`,
`HTTPError(APIError)`. -/
def parentClass : PyClass → Option PyClass
  | .Exception => none
  | .APIError => some .Exception
  | .BadResponseError => some .APIError
  | .BadJSONError => some .BadResponseError
  | .UnsupportedMethodError => some .APIError
  | .HTTPError => some .APIError

/-- The chain of classes from `c` up through its bases; fuel 4 exceeds the
depth of the hierarchy (BadJSONError up to Exception is depth 3). -/
def ancestorChain : Nat → PyClass → List PyClass
  | 0, c => [c]
  | n + 1, c =>
    c :: (match parentClass c with
          | some p => ancestorChain n p
          | none => [])

/-- `issubclass(a, b)` for the declared classes. -/
def pyIsSubclass (a b : PyClass) : Bool := b ∈ ancestorChain 4 a

/-- An `except Handler` clause catches a raised instance of class `raised`
iff `raised` is a subclass of `handler`. -/
def handlerCatches (handler raised : PyClass) : Bool := pyIsSubclass raised handler

/-- An instance of one of the ratlib exception classes: the class together
with the `code`, `details` and `json` attributes set by `APIError.__init__`. -/
structure RatError where
  cls : PyClass
  code : Option JValue
  details : Option JValue
  json : Option JObj

/-- Python exceptions raised by slips in the source itself (not part of the
ratlib hierarchy). -/
inductive PyErr where
  | typeError
  | attributeError
  | indexError
  | keyError
deriving DecidableEq

/-- What one `call` invocation produces: the decoded JSON on success, a raised
ratlib error, or an uncaught built-in Python exception. -/
inductive CallOutcome where
  | success (j : JObj)
  | raised (e : RatError)
  | pyErr (e : PyErr)

/-- A transport response: its status code, and the result of `.json()`
(`none` models a body that fails to parse, where `.json()` raises
`ValueError`). -/
structure Response where
  status_code : Nat
  jsonOpt : Option JObj

/-- What the underlying `requests` call did: returned a response, raised
`requests.exceptions.HTTPError` carrying a response, or raised some other
`requests.exceptions.RequestException`. -/
inductive TransportOutcome where
  | ok (r : Response)
  | httpExc (r : Response)
  | reqExc

/-- Result of the status-validation phase of `call` (lines 95-107). -/
inductive StatusStep where
  | pass (r : Response)
  | fail (f : CallOutcome)

/-- `if not statuses:` — `statuses` is falsy when it is `None` or the empty
set. -/
def statusesFalsy : Option (List Nat) → Bool
  | none => true
  | some l => l.isEmpty

/-- String constants from the source.  The apostrophe in the BadJSONError
default message is written via its character code. -/
def code2608 : Str := "2608".toList

def msgBadJSON : Str :=
  "API didn".toList ++ [Char.ofNat 39] ++ "t return valid JSON.".toList

def msgNoData : Str :=
  "Did not receive a data field in a non-error response.".toList

def keyErrors : Str := "errors".toList

def keyData : Str := "data".toList

def keyCode : Str := "code".toList

def keyDetails : Str := "details".toList

/-- Status validation, lines 100-107 of the source.

* With falsy `statuses`, `response.raise_for_status()` raises
  `requests.exceptions.HTTPError` exactly for status codes 400-599.  The
  handler on line 105 then evaluates
  `requests.status_codes[ex.response.status_code]`; `requests.status_codes`
  is a module, so subscripting it raises `TypeError` before the intended
  `HTTPError(code, reason)` is built, and the `TypeError` propagates.
* With a truthy `statuses` and a status outside it, line 103 evaluates
  `response.status`, an attribute `requests` responses do not have, raising
  `AttributeError` before the intended `HTTPError` is built; `AttributeError`
  is caught by neither `except` clause, so it propagates.
* A transport-raised `requests.exceptions.HTTPError` reaches the same
  line-105 handler (`TypeError`), and any other
  `requests.exceptions.RequestException` becomes `raise BadResponseError`,
  an instance with no code, details or json. -/
def validateStatus (statuses : Option (List Nat)) : TransportOutcome → StatusStep
  | .ok r =>
    if statusesFalsy statuses then
      if 400 ≤ r.status_code ∧ r.status_code < 600 then .fail (.pyErr .typeError)
      else .pass r
    else if r.status_code ∈ statuses.getD [] then .pass r
    else .fail (.pyErr .attributeError)
  | .httpExc _ => .fail (.pyErr .typeError)
  | .reqExc => .fail (.raised ⟨.BadResponseError, none, none, none⟩)

/-- The `errors` branch, lines 113-115: `err = json[kErrors][0]` followed by
`err.get(kCode)` and `err.get(kDetails)`.  When the first element is a dict
the generic `APIError` is raised with those fields and the full JSON attached;
other shapes hit built-in exceptions (indexing a non-sequence, `.get` on a
non-dict, an empty list). -/
def errorsCase (j : JObj) (v : JValue) : CallOutcome :=
  match v with
  | .arr (.obj e :: _) =>
    .raised ⟨.APIError, jLookup e keyCode, jLookup e keyDetails, some j⟩
  | .arr (_ :: _) => .pyErr .attributeError
  | .arr [] => .pyErr .indexError
  | .str (_ :: _) => .pyErr .attributeError
  | .str [] => .pyErr .indexError
  | .obj _ => .pyErr .keyError
  | _ => .pyErr .typeError

/-- JSON decoding and payload classification, lines 108-118: a body that is
not valid JSON raises `BadJSONError()` with its fixed defaults; a decoded
object with an `errors` key goes to `errorsCase`; one without a `data` key
raises `BadResponseError` with the fixed details message and the JSON
attached; otherwise the decoded JSON is returned unchanged. -/
def parseAndClassify (r : Response) : CallOutcome :=
  match r.jsonOpt with
  | none => .raised ⟨.BadJSONError, some (.str code2608), some (.str msgBadJSON), none⟩
  | some j =>
    match jLookup j keyErrors with
    | some v => errorsCase j v
    | none =>
      if (jLookup j keyData).isSome then .success j
      else .raised ⟨.BadResponseError, none, some (.str msgNoData), some j⟩

/-- The `uri` argument of `call`: either a plain string or a sequence of
fragments. -/
inductive UriArg where
  | str (s : Str)
  | seq (parts : List Str)

/-- URI resolution, lines 91-92: `if not isinstance(uri, str): uri =
urljoin(uri)`.  The sequence is passed to `urljoin(*parts)` as ONE positional
argument, so `parts` is the 1-tuple holding the whole sequence.  An empty
sequence is falsy and skipped, leaving the join of nothing, the empty string.
A non-empty sequence is yielded by the generator as-is (a list, not a
string), and the final `join` over strings then raises `TypeError`. -/
def resolveUri : UriArg → Except PyErr Str
  | .str s => .ok s
  | .seq parts => if parts.isEmpty then .ok [] else .error .typeError

/-- What is handed to the transport: the verb on the wire, the URI, the JSON
body, and the extra options actually forwarded. -/
structure IssuedRequest where
  method : Str
  uri : Str
  body : JObj
  opts : List (Str × Str)

/-- Line 49: the dict comprehension over the split of the literal
"GET PUT POST" — membership tests on the resulting dict are key membership in
this fixed, case-sensitive set. -/
def request_methods : List Str := ["GET".toList, "PUT".toList, "POST".toList]

/-- Python upper-casing of one character (ASCII, which covers every method
name the source compares against). -/
def upperChar (c : Char) : Char :=
  if 'a' ≤ c ∧ c ≤ 'z' then Char.ofNat (c.toNat - 32) else c

/-- Python upper-casing of a string, as in `method.upper()`. -/
def upperStr (s : Str) : Str := s.map upperChar

set_option linter.unusedVariables false in
/-- Dispatch, lines 96-99: a method in `request_methods` goes through the
verb-specific helper `request_methods[method](uri, json=data)`, which issues
that verb on the wire; any other method goes through
`requests.request(method.upper(), uri, json=data)`.  Neither path forwards
the extra keyword arguments of `call`, so the forwarded options are always
empty.  The body is `data or` the empty dict (line 93). -/
def issuedRequest (method : Str) (uri : Str) (data : Option JObj)
    (kwargs : List (Str × Str)) : IssuedRequest :=
  if method ∈ request_methods then
    { method := method, uri := uri, body := data.getD [], opts := [] }
  else
    { method := upperStr method, uri := uri, body := data.getD [], opts := [] }

/-- The generic-dispatch request of line 99 on its own: the upper-cased
method, the same URI and the same JSON body. -/
def genericIssue (method : Str) (uri : Str) (data : Option JObj) : IssuedRequest :=
  { method := upperStr method, uri := uri, body := data.getD [], opts := [] }

/-- `call(method, uri, data=None, statuses=None, **kwargs)`, lines 80-118.
The network itself is external: `transport` says what the `requests` call
does with the issued request. -/
def call (method : Str) (uri : UriArg) (data : Option JObj)
    (statuses : Option (List Nat)) (kwargs : List (Str × Str))
    (transport : IssuedRequest → TransportOutcome) : CallOutcome :=
  match resolveUri uri with
  | .error e => .pyErr e
  | .ok u =>
    match validateStatus statuses (transport (issuedRequest method u data kwargs)) with
    | .fail f => f
    | .pass r => parseAndClassify r

/-- Concrete witness data: a response whose JSON carries an errors entry. -/
def errObjW : JObj := [(keyCode, .str ['X']), (keyDetails, .str ['Y'])]

def errJsonW : JObj := [(keyErrors, .arr [.obj errObjW])]

def respErrW : Response := { status_code := 200, jsonOpt := some errJsonW }

/-- Concrete witness data: a response whose JSON carries a data key, and one
whose JSON is the empty object. -/
def dataJsonW : JObj := [(keyData, .obj [])]

def respDataW : Response := { status_code := 200, jsonOpt := some dataJsonW }

def respEmptyW : Response := { status_code := 200, jsonOpt := some [] }

/-- Concrete witness data: a response whose body is not valid JSON. -/
def respNoJsonW : Response := { status_code := 200, jsonOpt := none }

/- ------------------------------------------------------------------ -/
/- Theorems. -/
/- ------------------------------------------------------------------ -/

theorem lastIsSlash_cons (c : Char) (t : Str) (h : t ≠ []) :
    lastIsSlash (c :: t) = lastIsSlash t := by
  cases t with
  | nil => exact absurd rfl h
  | cons b l => simp [lastIsSlash, List.getLast?_cons_cons]

theorem stripTrail_append_slash (p : Str) (h : p ≠ []) :
    stripTrail p ++ ['/'] = p ++ (if lastIsSlash p then ([] : Str) else ['/']) := by
  by_cases hl : lastIsSlash p = true
  · have hg : p.getLast h = '/' := by
      have hq := List.getLast?_eq_getLast p h
      unfold lastIsSlash at hl
      rw [hq] at hl
      simpa using hl
    simp only [stripTrail, hl, if_true]
    calc p.dropLast ++ ['/'] = p.dropLast ++ [p.getLast h] := by rw [hg]
      _ = p := List.dropLast_append_getLast h
      _ = p ++ [] := by simp
  · simp [stripTrail, hl]

theorem stripLead_ne_nil {q : Str} (hq : q ≠ []) (hs : q ≠ ['/']) : stripLead q ≠ [] := by
  cases q with
  | nil => exact absurd rfl hq
  | cons c t =>
    by_cases hh : headIsSlash (c :: t) = true
    · have hc : c = '/' := by simpa [headIsSlash] using hh
      subst hc
      have ht : t ≠ [] := fun h => hs (by simp [h])
      simpa [stripLead, headIsSlash] using ht
    · simp [stripLead, hh]

/-- The generated pieces after a non-empty previous piece `prev` concatenate
to `tailJoin` of the remaining parts, provided no part is the bare slash
string. -/
theorem urljoinGen_flatten : ∀ (parts : List Str) (prev : Str), prev ≠ [] →
    (['/'] : Str) ∉ parts →
    (urljoinGen prev parts).flatten = tailJoin (lastIsSlash prev) parts := by
  intro parts
  induction parts with
  | nil => intro prev _ _; simp [urljoinGen, tailJoin]
  | cons part rest ih =>
    intro prev hprev hmem
    have hmem' : (['/'] : Str) ∉ rest := fun h => hmem (List.mem_cons_of_mem _ h)
    have hps : part ≠ ['/'] := fun h => hmem (h ▸ List.mem_cons_self _ _)
    have hprevE : prev.isEmpty = false := List.isEmpty_eq_false.mpr hprev
    by_cases hpe : part.isEmpty = true
    · simp [urljoinGen, tailJoin, hpe, ih prev hprev hmem']
    · have hpeF : part.isEmpty = false := by simpa using hpe
      have hpne : part ≠ [] := List.isEmpty_eq_false.mp hpeF
      by_cases hb : lastIsSlash prev = true
      · by_cases hh : headIsSlash part = true
        · -- both boundary slashes: the leading slash of `part` is stripped
          cases part with
          | nil => exact absurd rfl hpne
          | cons c t =>
            have hc : c = '/' := by simpa [headIsSlash] using hh
            subst hc
            have ht : t ≠ [] := fun h => hps (by simp [h])
            have hlt : lastIsSlash ('/' :: t) = lastIsSlash t := lastIsSlash_cons _ _ ht
            simp [urljoinGen, tailJoin, hpeF, hprevE, hb, hh, stripLead, headIsSlash,
              List.flatten_cons, ih t ht hmem', hlt]
        · -- exactly one boundary slash (on the left): `part` emitted unchanged
          have hhF : headIsSlash part = false := by simpa using hh
          simp [urljoinGen, tailJoin, hpeF, hprevE, hb, hhF, stripLead,
            List.flatten_cons, ih part hpne hmem']
      · have hbF : lastIsSlash prev = false := by simpa using hb
        by_cases hh : headIsSlash part = true
        · -- exactly one boundary slash (on the right): `part` emitted unchanged
          cases part with
          | nil => exact absurd rfl hpne
          | cons c t =>
            have hc : c = '/' := by simpa [headIsSlash] using hh
            subst hc
            have ht : t ≠ [] := fun h => hps (by simp [h])
            have hlt : lastIsSlash ('/' :: t) = lastIsSlash t := lastIsSlash_cons _ _ ht
            simp [urljoinGen, tailJoin, hpeF, hprevE, hbF, hh, stripLead, headIsSlash,
              List.flatten_cons, ih ('/' :: t) (by simp) hmem', hlt]
        · -- no boundary slash: a separator slash is emitted
          have hhF : headIsSlash part = false := by simpa using hh
          simp [urljoinGen, tailJoin, hpeF, hprevE, hbF, hhF, stripLead,
            List.flatten_cons, ih part hpne hmem']

theorem tailJoin_filter (l : List Str) : ∀ b : Bool,
    tailJoin b (l.filter (fun p => !p.isEmpty)) = tailJoin b l := by
  induction l with
  | nil => intro b; rfl
  | cons q rest ih =>
    intro b
    by_cases hq : q.isEmpty = true
    · rw [List.filter_cons_of_neg (by simp [hq])]
      simp [tailJoin, hq, ih b]
    · have hqF : q.isEmpty = false := by simpa using hq
      rw [List.filter_cons_of_pos (by simp [hqF])]
      simp [tailJoin, hqF, ih]

theorem specJoinAux_eq_tailJoin : ∀ (rest : List Str) (p : Str), p ≠ [] →
    (∀ q ∈ rest, q ≠ []) → (['/'] : Str) ∉ rest →
    specJoinAux p rest = p ++ tailJoin (lastIsSlash p) rest := by
  intro rest
  induction rest with
  | nil => intro p _ _ _; simp [specJoinAux, tailJoin]
  | cons q rest' ih =>
    intro p hp hall hmem
    have hq : q ≠ [] := hall q (List.mem_cons_self _ _)
    have hqs : q ≠ ['/'] := fun h => hmem (h ▸ List.mem_cons_self _ _)
    have hsl : stripLead q ≠ [] := stripLead_ne_nil hq hqs
    have hall' : ∀ r ∈ rest', r ≠ [] := fun r hr => hall r (List.mem_cons_of_mem _ hr)
    have hmem' : (['/'] : Str) ∉ rest' := fun h => hmem (List.mem_cons_of_mem _ h)
    have hqE : q.isEmpty = false := List.isEmpty_eq_false.mpr hq
    calc specJoinAux p (q :: rest')
        = stripTrail p ++ ['/'] ++ specJoinAux (stripLead q) rest' := rfl
      _ = stripTrail p ++ ['/'] ++
            (stripLead q ++ tailJoin (lastIsSlash (stripLead q)) rest') := by
          rw [ih (stripLead q) hsl hall' hmem']
      _ = (p ++ (if lastIsSlash p then ([] : Str) else ['/'])) ++
            (stripLead q ++ tailJoin (lastIsSlash (stripLead q)) rest') := by
          rw [stripTrail_append_slash p hp]
      _ = p ++ tailJoin (lastIsSlash p) (q :: rest') := by
          simp [tailJoin, hqE, List.append_assoc]

/-- Central comparison: on fragment lists containing no bare slash fragment,
the source joiner agrees with the spec reading of one separating slash per
junction. -/
theorem urljoin_eq_specJoin : ∀ parts : List Str, (['/'] : Str) ∉ parts →
    urljoin parts = specJoin parts := by
  intro parts
  induction parts with
  | nil => intro _; rfl
  | cons part rest ih =>
    intro hmem
    have hmem' : (['/'] : Str) ∉ rest := fun h => hmem (List.mem_cons_of_mem _ h)
    by_cases hpe : part.isEmpty = true
    · have hgen : urljoinGen [] (part :: rest) = urljoinGen [] rest := by
        simp [urljoinGen, hpe]
      have hfilter : (part :: rest).filter (fun p => !p.isEmpty)
          = rest.filter (fun p => !p.isEmpty) := List.filter_cons_of_neg (by simp [hpe])
      have hrec := ih hmem'
      simp only [urljoin, hgen] at *
      simp only [specJoin, hfilter]
      exact hrec
    · have hpeF : part.isEmpty = false := by simpa using hpe
      have hpne : part ≠ [] := List.isEmpty_eq_false.mp hpeF
      have step1 : urljoin (part :: rest) = part ++ (urljoinGen part rest).flatten := by
        simp [urljoin, urljoinGen, hpeF]
      have hallf : ∀ q ∈ rest.filter (fun p => !p.isEmpty), q ≠ [] := by
        intro q hqf
        have := (List.mem_filter.mp hqf).2
        simpa [List.isEmpty_eq_false] using this
      have hmemf : (['/'] : Str) ∉ rest.filter (fun p => !p.isEmpty) := fun h =>
        hmem' ((List.mem_filter.mp h).1)
      have hfilter : (part :: rest).filter (fun p => !p.isEmpty)
          = part :: rest.filter (fun p => !p.isEmpty) := List.filter_cons_of_pos (by simp [hpeF])
      rw [step1, urljoinGen_flatten rest part hpne hmem',
        ← tailJoin_filter rest (lastIsSlash part),
        ← specJoinAux_eq_tailJoin _ part hpne hallf hmemf]
      simp only [specJoin, hfilter]

theorem urljoin_singleton (p : Str) (hp : p ≠ []) : urljoin [p] = p := by
  have hpe : p.isEmpty = false := List.isEmpty_eq_false.mpr hp
  simp [urljoin, urljoinGen, hpe]

theorem specJoinAux_clean : ∀ (rest : List Str) (p : Str),
    (∀ q ∈ rest, headIsSlash q = false) →
    (∀ q ∈ (p :: rest).dropLast, lastIsSlash q = false) →
    specJoinAux p rest = List.intercalate ['/'] (p :: rest) := by
  intro rest
  induction rest with
  | nil => intro p _ _; simp [specJoinAux, List.intercalate, List.intersperse_singleton]
  | cons q rest' ih =>
    intro p hheads hlasts
    have hp : lastIsSlash p = false := hlasts p (List.mem_cons_self _ _)
    have hq : headIsSlash q = false := hheads q (List.mem_cons_self _ _)
    have hheads' : ∀ r ∈ rest', headIsSlash r = false := fun r hr =>
      hheads r (List.mem_cons_of_mem _ hr)
    have hlasts' : ∀ r ∈ (q :: rest').dropLast, lastIsSlash r = false := fun r hr =>
      hlasts r (List.mem_cons_of_mem _ hr)
    have h1 : stripTrail p = p := by simp [stripTrail, hp]
    have h2 : stripLead q = q := by simp [stripLead, hq]
    calc specJoinAux p (q :: rest')
        = stripTrail p ++ ['/'] ++ specJoinAux (stripLead q) rest' := rfl
      _ = p ++ ['/'] ++ List.intercalate ['/'] (q :: rest') := by
          rw [h1, h2, ih q hheads' hlasts']
      _ = List.intercalate ['/'] (p :: q :: rest') := by
          simp [List.intercalate, List.intersperse_cons_cons, List.flatten_cons,
            List.append_assoc]

/-- Claim C1, as stated, fails on the code.  The claim quantifies over every
sequence of string fragments; the spec reading of the separation property is
`specJoin`.  At the fragments "a/", "/", "b" the code collapses the bare
slash fragment into the previous junction (the generator strips it to the
empty string, which then no longer counts as a previous fragment), so the
three fragments end up sharing a single slash instead of each consecutive
pair being separated by one. -/
theorem urljoin_single_separator_cex :
    urljoin [['a', '/'], ['/'], ['b']] = ['a', '/', 'b'] ∧
    specJoin [['a', '/'], ['/'], ['b']] = ['a', '/', '/', 'b'] ∧
    urljoin [['a', '/'], ['/'], ['b']] ≠ specJoin [['a', '/'], ['/'], ['b']] := by
  decide

/-- Claim C1 (amended): for every sequence of string fragments in which no
fragment is the one-character string "/", urljoin returns the single string
in which each pair of consecutive non-empty fragments is separated by exactly
one slash (one carried boundary slash per junction side being absorbed into
the separator), and empty fragments are skipped entirely. -/
theorem urljoin_single_separator (parts : List Str)
    (h : (['/'] : Str) ∉ parts) : urljoin parts = specJoin parts :=
  urljoin_eq_specJoin parts h

theorem urljoin_single_separator_witness :
    ((['/'] : Str) ∉ [['a', '/'], ['/', 'b'], ([] : Str), ['c']]) ∧
    urljoin [['a', '/'], ['/', 'b'], ([] : Str), ['c']]
      = specJoin [['a', '/'], ['/', 'b'], ([] : Str), ['c']] :=
  ⟨by decide, urljoin_single_separator _ (by decide)⟩

/-- Claim C9: for every non-empty sequence of non-empty fragments with no
slashes at any junction (no fragment adjacent to a junction carries a slash
on that side), urljoin returns exactly the fragments joined by a single slash
between each consecutive pair. -/
theorem urljoin_clean_junctions (parts : List Str) (hne : parts ≠ [])
    (hall : ∀ p ∈ parts, p ≠ [])
    (hheads : ∀ p ∈ parts.tail, headIsSlash p = false)
    (hlasts : ∀ p ∈ parts.dropLast, lastIsSlash p = false) :
    urljoin parts = List.intercalate ['/'] parts := by
  match parts with
  | [] => exact absurd rfl hne
  | [p] =>
    rw [urljoin_singleton p (hall p (List.mem_cons_self _ _))]
    simp [List.intercalate, List.intersperse_singleton]
  | p :: q :: rest =>
    have hmem : (['/'] : Str) ∉ (p :: q :: rest) := by
      intro hm
      rcases List.mem_cons.mp hm with h1 | h2
      · have hlp : lastIsSlash p = false := hlasts p (List.mem_cons_self _ _)
        rw [← h1] at hlp
        simp [lastIsSlash] at hlp
      · have hhp : headIsSlash (['/'] : Str) = false := hheads _ h2
        simp [headIsSlash] at hhp
    have hfilter : (p :: q :: rest).filter (fun x => !x.isEmpty) = p :: q :: rest := by
      rw [List.filter_eq_self]
      intro a ha
      simpa [List.isEmpty_eq_false] using hall a ha
    rw [urljoin_eq_specJoin _ hmem]
    simp only [specJoin, hfilter]
    exact specJoinAux_clean (q :: rest) p hheads hlasts

theorem urljoin_clean_junctions_witness :
    (([['a', 'b'], ['c'], ['d', '/', 'e']] : List Str) ≠ [] ∧
      (∀ p ∈ ([['a', 'b'], ['c'], ['d', '/', 'e']] : List Str), p ≠ []) ∧
      (∀ p ∈ ([['a', 'b'], ['c'], ['d', '/', 'e']] : List Str).tail, headIsSlash p = false) ∧
      (∀ p ∈ ([['a', 'b'], ['c'], ['d', '/', 'e']] : List Str).dropLast, lastIsSlash p = false)) ∧
    urljoin [['a', 'b'], ['c'], ['d', '/', 'e']]
      = List.intercalate ['/'] [['a', 'b'], ['c'], ['d', '/', 'e']] :=
  ⟨⟨by decide, by decide, by decide, by decide⟩,
    urljoin_clean_junctions _ (by decide) (by decide) (by decide) (by decide)⟩

/-- Claim C2, evaluated at a failing input.  The code does pass a non-string
`uri` to the joiner, but as a single positional argument, so for every
non-empty fragment sequence the call raises `TypeError` instead of issuing a
request against the joined URL; the second conjunct shows the URL the joiner
contract would have produced for these fragments. -/
theorem call_seq_uri_raises_typeerror :
    (∀ transport : IssuedRequest → TransportOutcome,
      call "GET".toList (.seq [['a'], ['b']]) none none [] transport
        = .pyErr .typeError) ∧
    urljoin [['a'], ['b']] = ['a', '/', 'b'] :=
  ⟨fun _ => rfl, by decide⟩

/-- Claim C3, evaluated at failing inputs.  A 404 with no acceptable-status
set reaches the `except` handler of line 105, which subscripts the
`requests.status_codes` module and raises `TypeError`; a 404 with the set
containing only 200 reaches line 103, which reads the non-existent attribute
`response.status` and raises `AttributeError`.  Neither path produces the
HTTPError with code 404 and reason phrase "Not Found" that the claim
describes. -/
theorem call_status_failure_pyerror :
    call "GET".toList (.str ['u']) none none []
        (fun _ => .ok { status_code := 404, jsonOpt := some [] }) = .pyErr .typeError ∧
    call "GET".toList (.str ['u']) none none []
        (fun _ => .httpExc { status_code := 404, jsonOpt := none }) = .pyErr .typeError ∧
    call "GET".toList (.str ['u']) none (some [200]) []
        (fun _ => .ok { status_code := 404, jsonOpt := some [] }) = .pyErr .attributeError :=
  ⟨rfl, rfl, rfl⟩

/-- Claim C4: a response that passes status validation and decodes to JSON
with an `errors` key whose first element is a mapping makes `call` raise the
generic APIError, with code and details taken from that first element and the
full decoded JSON attached. -/
theorem call_errors_key_raises_apierror (m u : Str) (d : Option JObj)
    (sts : Option (List Nat)) (kw : List (Str × Str)) (r : Response) (j : JObj)
    (e : JObj) (rest : List JValue)
    (hjson : r.jsonOpt = some j)
    (hstatus : validateStatus sts (.ok r) = .pass r)
    (herr : jLookup j keyErrors = some (.arr (.obj e :: rest))) :
    call m (.str u) d sts kw (fun _ => .ok r)
      = .raised ⟨.APIError, jLookup e keyCode, jLookup e keyDetails, some j⟩ := by
  simp [call, resolveUri, hstatus, parseAndClassify, hjson, herr, errorsCase]

theorem call_errors_key_raises_apierror_witness :
    respErrW.jsonOpt = some errJsonW ∧
    validateStatus none (.ok respErrW) = .pass respErrW ∧
    jLookup errJsonW keyErrors = some (.arr (.obj errObjW :: [])) ∧
    call "GET".toList (.str ['u']) none none [] (fun _ => .ok respErrW)
      = .raised ⟨.APIError, some (.str ['X']), some (.str ['Y']), some errJsonW⟩ :=
  ⟨rfl, rfl, rfl,
    call_errors_key_raises_apierror "GET".toList ['u'] none none [] respErrW
      errJsonW errObjW [] rfl rfl rfl⟩

/-- Claim C5: after a successful decode with no `errors` key, `call` raises
BadResponseError with the fixed details message and the JSON attached when
the `data` key is missing, and returns the decoded JSON unchanged when the
`data` key is present. -/
theorem call_data_key_policy (m u : Str) (d : Option JObj)
    (sts : Option (List Nat)) (kw : List (Str × Str)) (r : Response) (j : JObj)
    (hjson : r.jsonOpt = some j)
    (hstatus : validateStatus sts (.ok r) = .pass r)
    (hnoerr : jLookup j keyErrors = none) :
    call m (.str u) d sts kw (fun _ => .ok r)
      = if (jLookup j keyData).isSome then .success j
        else .raised ⟨.BadResponseError, none, some (.str msgNoData), some j⟩ := by
  simp [call, resolveUri, hstatus, parseAndClassify, hjson, hnoerr]

theorem call_data_key_policy_witness :
    (respDataW.jsonOpt = some dataJsonW ∧
      validateStatus none (.ok respDataW) = .pass respDataW ∧
      jLookup dataJsonW keyErrors = none ∧
      call "GET".toList (.str ['u']) none none [] (fun _ => .ok respDataW)
        = .success dataJsonW) ∧
    (respEmptyW.jsonOpt = some [] ∧
      jLookup [] keyErrors = none ∧
      call "GET".toList (.str ['u']) none none [] (fun _ => .ok respEmptyW)
        = .raised ⟨.BadResponseError, none, some (.str msgNoData), some []⟩) :=
  ⟨⟨rfl, rfl, rfl,
      call_data_key_policy "GET".toList ['u'] none none [] respDataW dataJsonW
        rfl rfl rfl⟩,
    ⟨rfl, rfl,
      call_data_key_policy "GET".toList ['u'] none none [] respEmptyW []
        rfl rfl rfl⟩⟩

/-- Claim C6, evaluated at a failing input.  `call` accepts extra keyword
arguments and its docstring says they are passed to requests, but lines 97
and 99 invoke the transport with only the URI and the JSON body, so the
issued request carries no transport options even when the caller supplies
some. -/
theorem call_kwargs_not_forwarded :
    (issuedRequest "GET".toList ['u'] none [("timeout".toList, ['5'])]).opts = [] ∧
    (issuedRequest "DELETE".toList ['u'] none [("timeout".toList, ['5'])]).opts = [] ∧
    ([("timeout".toList, ['5'])] : List (Str × Str)) ≠ [] :=
  ⟨rfl, rfl, by decide⟩

/-- Claim C7: for every method string, the dispatch of lines 96-99 issues the
same request the generic path would issue: a method in the fixed
case-sensitive set GET/PUT/POST goes through the verb-specific helper, which
sends that very verb, and since those three strings are their own upper-case,
both paths send the same HTTP method, URI and JSON body. -/
theorem call_dispatch_paths_agree (m u : Str) (d : Option JObj)
    (kw : List (Str × Str)) :
    issuedRequest m u d kw = genericIssue m u d := by
  by_cases h : m ∈ request_methods
  · have h3 : m = "GET".toList ∨ m = "PUT".toList ∨ m = "POST".toList := by
      simpa [request_methods] using h
    rcases h3 with h | h | h <;> subst h <;>
      simp [issuedRequest, genericIssue, request_methods] <;> decide
  · simp [issuedRequest, genericIssue, h]

/-- Claim C8: a response that passes status validation but whose body fails
to parse as JSON makes `call` raise BadJSONError with the fixed default code
and message. -/
theorem call_invalid_json_raises_badjson (m u : Str) (d : Option JObj)
    (sts : Option (List Nat)) (kw : List (Str × Str)) (r : Response)
    (hjson : r.jsonOpt = none)
    (hstatus : validateStatus sts (.ok r) = .pass r) :
    call m (.str u) d sts kw (fun _ => .ok r)
      = .raised ⟨.BadJSONError, some (.str code2608), some (.str msgBadJSON), none⟩ := by
  simp [call, resolveUri, hstatus, parseAndClassify, hjson]

theorem call_invalid_json_raises_badjson_witness :
    respNoJsonW.jsonOpt = none ∧
    validateStatus none (.ok respNoJsonW) = .pass respNoJsonW ∧
    call "GET".toList (.str ['u']) none none [] (fun _ => .ok respNoJsonW)
      = .raised ⟨.BadJSONError, some (.str code2608), some (.str msgBadJSON), none⟩ :=
  ⟨rfl, rfl,
    call_invalid_json_raises_badjson "GET".toList ['u'] none none [] respNoJsonW
      rfl rfl⟩

/-- Claim C10: BadJSONError is declared as a subclass of BadResponseError,
itself a subclass of APIError, so the error kinds are not disjoint siblings:
a handler catching BadResponseError also catches every BadJSONError. -/
theorem badjson_subclass_of_badresponse :
    pyIsSubclass .BadJSONError .BadResponseError = true ∧
    pyIsSubclass .BadJSONError .APIError = true ∧
    handlerCatches .BadResponseError .BadJSONError = true ∧
    PyClass.BadJSONError ≠ PyClass.BadResponseError := by
  decide

end Ratlib
